import Mathlib

/-!
Verification of the sample-loading pipeline of `src/main.py` (pytorch-lmdb).

The LMDB archive is modelled at the post-deserialization level: `pickle` and the
PIL image decoder are external, deterministic codecs, so an archive value under a
key is modelled as the already-deserialized object, and image decoding is a
parameter `decodeRGB : Bytes → Img`.  Wall-clock timing and the GPU model are
opaque: a pass of `train` is modelled as the pair of `AverageMeter`s it returns.
-/

namespace PytorchLmdb

/-- Byte strings (LMDB keys and values, image buffers). -/
abbrev Bytes := List Nat

/-- Python list indexing `xs[i]` with an `int` index: nonnegative indices are
looked up directly, negative indices alias `xs[len + i]`, and anything outside
`[-len, len)` raises `IndexError` (modelled as `none`). -/
def pyIndex {α : Type} (xs : List α) (i : Int) : Option α :=
  if 0 ≤ i then xs.get? i.toNat
  else if 0 ≤ (xs.length : Int) + i then xs.get? ((xs.length : Int) + i).toNat
  else none

/-- A data record as stored in the archive: `pickle.loads(byteflow)` yields a pair
whose first component is a sequence of image byte-buffers (`unpacked[0]`, of which
`__getitem__` uses `imgbuf[0]`) and whose second is the label (`unpacked[1]`). -/
structure Record where
  imgbuf : List Bytes
  label : Int
deriving DecidableEq

/-- The LMDB archive: an association of byte keys to records, plus the two
reserved entries `b'__len__'` (the stored sample count) and `b'__keys__'` (the
stored ordered key sequence), each modelled after `pickle.loads`. -/
structure Archive where
  store : List (Bytes × Record)
  lenEntry : Nat
  keysEntry : List Bytes
deriving DecidableEq

/-- `txn.get(key)` for a data key: lookup in the store. -/
def Archive.fetch (a : Archive) (k : Bytes) : Option Record :=
  a.store.lookup k

/-- A data key is present and its record has a nonempty image-buffer sequence. -/
def Archive.keyOkB (a : Archive) (k : Bytes) : Bool :=
  match a.fetch k with
  | none => false
  | some r => !r.imgbuf.isEmpty

/-- Well-formed archive: the stored count matches the stored key sequence
(the spec invariant `len(keys) == count`) and every stored key resolves to a
decodable record. -/
def Archive.WellFormed (a : Archive) : Prop :=
  a.lenEntry = a.keysEntry.length ∧ a.keysEntry.all a.keyOkB = true

instance (a : Archive) : Decidable a.WellFormed := by
  unfold Archive.WellFormed; infer_instance

/-- Errors surfaced by the pipeline: `lmdb.Error` on open (`StorageUnavailable`),
Python `IndexError` (`IndexOutOfRange`), and unpickling failures (`DecodeError`). -/
inductive PyErr where
  | StorageUnavailable
  | IndexOutOfRange
  | DecodeError
deriving DecidableEq

/-- The state of an `ImageFolderLMDB` instance.  Attribute existence
(`hasattr(self, 'txn')`) is modelled as `Option`: `none` means the attribute was
never set.  `env`/`txn` hold the snapshot of the archive the worker-local
connection sees. -/
structure LMDBState (Img : Type) where
  db_path : Bytes
  transform : Option (Img → Nat → Img × Nat)
  target_transform : Option (Int → Int)
  length : Nat
  keys : List Bytes
  env : Option Archive
  txn : Option Archive

/-- `ImageFolderLMDB.__init__`: opens the archive at `db_path` (failing with
`lmdb.Error` if it is unavailable — `storage = none`), reads the reserved count
and key-sequence entries inside a throwaway transaction, and stores them; the
connection itself is a local variable and is discarded (no `env`/`txn`
attribute is set). -/
def ImageFolderLMDB.init {Img : Type} (db_path : Bytes)
    (transform : Option (Img → Nat → Img × Nat)) (target_transform : Option (Int → Int))
    (storage : Option Archive) : Except PyErr (LMDBState Img) :=
  match storage with
  | none => .error .StorageUnavailable
  | some a => .ok
      { db_path := db_path
        transform := transform
        target_transform := target_transform
        length := a.lenEntry
        keys := a.keysEntry
        env := none
        txn := none }

/-- `ImageFolderLMDB.open_lmdb` applied to whatever archive currently lives at
`db_path`: re-opens the environment, begins a read transaction, and re-reads
`self.length` and `self.keys` from the reserved entries. -/
def ImageFolderLMDB.open_lmdb {Img : Type} (self : LMDBState Img) (a : Archive) :
    LMDBState Img :=
  { self with env := some a, txn := some a, length := a.lenEntry, keys := a.keysEntry }

/-- The body of `ImageFolderLMDB.__getitem__` after the lazy-open check, reading
through the already-open transaction snapshot `a`:
`byteflow = self.txn.get(self.keys[index])`, `unpacked = pickle.loads(byteflow)`
(a `None` byteflow makes `pickle.loads` raise, modelled as `DecodeError`),
`buf.write(imgbuf[0])`, PIL decode (`decodeRGB`), then the optional transforms.
The randomized transform threads an RNG state. -/
def ImageFolderLMDB.getitemBody {Img : Type} (decodeRGB : Bytes → Img)
    (a : Archive) (self : LMDBState Img) (index : Int) (rng : Nat) :
    Except PyErr (Img × Int) × LMDBState Img × Nat :=
  match pyIndex self.keys index with
  | none => (.error .IndexOutOfRange, self, rng)
  | some key =>
    match a.fetch key with
    | none => (.error .DecodeError, self, rng)
    | some r =>
      match pyIndex r.imgbuf 0 with
      | none => (.error .IndexOutOfRange, self, rng)
      | some imgBytes =>
        let img := decodeRGB imgBytes
        let step := match self.transform with
          | none => (img, rng)
          | some t => t img rng
        let target := match self.target_transform with
          | none => r.label
          | some tt => tt r.label
        (.ok (step.1, target), self, step.2)

/-- `ImageFolderLMDB.__getitem__`: if no `txn` attribute exists yet, lazily call
`open_lmdb` against the archive currently at `db_path` (`storage`; `none` if the
path is now unavailable), then run the body.  When the connection is already
open, `storage` is never consulted. -/
def ImageFolderLMDB.getitem {Img : Type} (decodeRGB : Bytes → Img)
    (self : LMDBState Img) (storage : Option Archive) (index : Int) (rng : Nat) :
    Except PyErr (Img × Int) × LMDBState Img × Nat :=
  match self.txn with
  | some a => ImageFolderLMDB.getitemBody decodeRGB a self index rng
  | none =>
    match storage with
    | none => (.error .StorageUnavailable, self, rng)
    | some a =>
      ImageFolderLMDB.getitemBody decodeRGB a (ImageFolderLMDB.open_lmdb self a) index rng

/-- `ImageFolderLMDB.__len__`. -/
def ImageFolderLMDB.len {Img : Type} (self : LMDBState Img) : Nat :=
  self.length

/-- `AverageMeter`: running statistics.  Timing values are modelled as exact
rationals; `count` stays a natural number as in the Python `int`. -/
structure AverageMeter where
  val : ℚ
  avg : ℚ
  sum : ℚ
  count : ℕ
  avg_values : List ℚ
deriving DecidableEq

/-- `AverageMeter.reset` (also the state `__init__` produces). -/
def AverageMeter.reset : AverageMeter :=
  { val := 0, avg := 0, sum := 0, count := 0, avg_values := [] }

/-- `AverageMeter.update(val, n)`:
`self.val = val; self.sum += val * n; self.count += n;
self.avg = self.sum / self.count; self.avg_values.append(self.avg)`. -/
def AverageMeter.update (self : AverageMeter) (val : ℚ) (n : ℕ) : AverageMeter :=
  let s := self.sum + val * n
  let c := self.count + n
  { val := val, avg := s / c, sum := s, count := c,
    avg_values := self.avg_values ++ [s / c] }

/-- A sequence of `update` calls, in order. -/
def AverageMeter.updates (self : AverageMeter) (us : List (ℚ × ℕ)) : AverageMeter :=
  us.foldl (fun m u => m.update u.1 u.2) self

/-- Modelled from the spec: the batching layer is `torch.utils.data.DataLoader`,
an external collaborator not in this repository.  Per the spec's
BatchingPipeline contract, one pass takes the (shuffled) sequence of dataset
indices and cuts it into consecutive chunks of `B`, the last possibly shorter
(`drop_last` is off). -/
def chunkList {α : Type} (B : Nat) (xs : List α) : List (List α) :=
  match xs, B with
  | [], _ => []
  | _ :: _, 0 => []
  | x :: rest, B + 1 =>
    (x :: rest).take (B + 1) :: chunkList (B + 1) ((x :: rest).drop (B + 1))
termination_by xs.length
decreasing_by
  simp only [List.length_drop, List.length_cons]
  omega

/-- Modelled from the spec: one pass of the `DataLoader` over a dataset of
length `L` with `shuffle=True` draws a permutation `perm` of `{0, ..., L-1}`
and yields its chunks of `batch_size`. -/
def onePass (B : Nat) (perm : List Nat) : List (List Nat) :=
  chunkList B perm

/-- `np.mean` over a Python list, as exact rational arithmetic. -/
def npMean (xs : List ℚ) : ℚ :=
  xs.sum / (xs.length : ℚ)

/-- The per-backend numbers `main` prints after the passes. -/
structure BackendSummary where
  avgData : ℚ
  avgBatch : ℚ
  totalData : ℚ
  totalBatch : ℚ
deriving DecidableEq

/-- The measurement loop of `main` for one backend: run `train` for
`_ in range(10)`, collect each pass's `batch_time.avg` / `data_time.avg` into
lists and accumulate `batch_time.sum` / `data_time.sum`, then summarize with
`np.mean` and the running totals.  A pass is modelled by the
`(batch_time, data_time)` meter pair `train` returns. -/
def measureBackend (train : Nat → AverageMeter × AverageMeter) : BackendSummary :=
  let results := (List.range 10).map train
  { avgData := npMean (results.map (fun p => p.2.avg))
    avgBatch := npMean (results.map (fun p => p.1.avg))
    totalData := (results.map (fun p => p.2.sum)).sum
    totalBatch := (results.map (fun p => p.1.sum)).sum }

/-- The two configured backends, in the order of the global `DBS` list. -/
inductive Backend where
  | lmdb
  | imagefolder
deriving DecidableEq

/-- `DBS = ['lmdb', 'imagefolder']`. -/
def DBS : List Backend := [.lmdb, .imagefolder]

/-- The `for dataset_type in DBS:` loop of `main`.  `construct` is the dataset
construction for a backend (it may raise, e.g. `ImageFolderLMDB.init`);
there is no `try`/`except`, so an exception aborts the loop: the function
returns the summaries printed before the abort and the escaped error, if any. -/
def runBackends (construct : Backend → Except PyErr Unit)
    (train : Backend → Nat → AverageMeter × AverageMeter) :
    List Backend → List (Backend × BackendSummary) × Option PyErr
  | [] => ([], none)
  | b :: rest =>
    match construct b with
    | .error e => ([], some e)
    | .ok _ =>
      let s := measureBackend (train b)
      let out := runBackends construct train rest
      ((b, s) :: out.1, out.2)

/-- `main`, restricted to its measurement core: iterate `DBS`. -/
def mainRun (construct : Backend → Except PyErr Unit)
    (train : Backend → Nat → AverageMeter × AverageMeter) :
    List (Backend × BackendSummary) × Option PyErr :=
  runBackends construct train DBS

/-! ### Concrete fixtures -/

/-- A 2-sample archive fixture. -/
def arch2 : Archive :=
  { store := [([0], { imgbuf := [[10, 11]], label := 7 }),
              ([1], { imgbuf := [[20, 21]], label := 1 })]
    lenEntry := 2
    keysEntry := [[0], [1]] }

/-- The same store and key sequence as `arch2`, but a different stored count:
what the path could hold after the archive is swapped between two opens. -/
def arch2' : Archive :=
  { store := [([0], { imgbuf := [[10, 11]], label := 7 }),
              ([1], { imgbuf := [[20, 21]], label := 1 })]
    lenEntry := 99
    keysEntry := [[0], [1]] }

/-- The state `ImageFolderLMDB.__init__` produces on `arch2` with no transforms,
image type `Bytes`. -/
def state2 : LMDBState Bytes :=
  { db_path := [0], transform := none, target_transform := none,
    length := 2, keys := [[0], [1]], env := none, txn := none }

/-- Modelled from the spec: the transform `main` configures for both backends is
`RandomResizedCrop` + `RandomHorizontalFlip` + `ToTensor` + `Normalize`, torchvision
collaborators outside this repository.  Per the spec, randomized augmentation
depends on the random state; this stands for `RandomHorizontalFlip`: flip the
image when the RNG word is odd, and advance the RNG. -/
def randomFlip : Bytes → Nat → Bytes × Nat :=
  fun img rng => (if rng % 2 = 0 then img else img.reverse, rng + 1)

/-- `state2` configured with the randomized transform, as `main` does for the
lmdb backend. -/
def state2rand : LMDBState Bytes :=
  { db_path := [0], transform := some randomFlip, target_transform := none,
    length := 2, keys := [[0], [1]], env := none, txn := none }

/-- The running average recorded after the `(i+1)`-st update. -/
def runningAvg (us : List (ℚ × ℕ)) (i : Nat) : ℚ :=
  ((us.take (i + 1)).map (fun u => u.1 * (u.2 : ℚ))).sum
    / ((((us.take (i + 1)).map (fun u => u.2)).sum : ℕ) : ℚ)

/-- The dataset-construction step of `main` when the LMDB archive path holds
nothing (`lmdb.open` raises) while the imagefolder backend constructs fine. -/
def constructMissingLmdb : Backend → Except PyErr Unit :=
  fun b =>
    match b with
    | .lmdb =>
      match @ImageFolderLMDB.init Bytes [0] none none none with
      | .error e => .error e
      | .ok _ => .ok ()
    | .imagefolder => .ok ()

/-- A trivial pass result: both meters untouched. -/
def trainZero : Backend → Nat → AverageMeter × AverageMeter :=
  fun _ _ => (AverageMeter.reset, AverageMeter.reset)

/-! ### Helper lemmas -/

theorem pyIndex_eq_none_iff {α : Type} (xs : List α) (i : Int) :
    pyIndex xs i = none ↔ (xs.length : Int) ≤ i ∨ i < -(xs.length : Int) := by
  unfold pyIndex
  by_cases h : 0 ≤ i
  · simp only [if_pos h, List.get?_eq_none]
    omega
  · by_cases h3 : 0 ≤ (xs.length : Int) + i
    · simp only [if_neg h, if_pos h3, List.get?_eq_none]
      omega
    · simp only [if_neg h, if_neg h3]
      constructor
      · intro _; omega
      · intro _; trivial

theorem pyIndex_nonneg {α : Type} (xs : List α) (i : Int) (h : 0 ≤ i) :
    pyIndex xs i = xs.get? i.toNat := by
  unfold pyIndex
  simp [h]

theorem pyIndex_neg_alias {α : Type} (xs : List α) (i : Int)
    (h1 : -(xs.length : Int) ≤ i) (h2 : i < 0) :
    pyIndex xs i = pyIndex xs (i + xs.length) := by
  unfold pyIndex
  have hx : ¬ 0 ≤ i := by omega
  have hy : 0 ≤ (xs.length : Int) + i := by omega
  have hz : (0 : Int) ≤ i + xs.length := by omega
  simp only [if_neg hx, if_pos hy, if_pos hz]
  congr 1
  omega

theorem pyIndex_zero {α : Type} (b : α) (bs : List α) : pyIndex (b :: bs) 0 = some b := by
  simp [pyIndex]

theorem pyIndex_mem {α : Type} (xs : List α) (i : Int) (k : α)
    (h : pyIndex xs i = some k) : k ∈ xs := by
  unfold pyIndex at h
  split at h
  · exact List.get?_mem h
  · split at h
    · exact List.get?_mem h
    · exact absurd h (by simp)

/-- `getitemBody` never changes the instance state. -/
theorem getitemBody_state {Img : Type} (d : Bytes → Img) (a : Archive)
    (s : LMDBState Img) (i : Int) (rng : Nat) :
    (ImageFolderLMDB.getitemBody d a s i rng).2.1 = s := by
  rcases hk : pyIndex s.keys i with _ | key
  · simp [ImageFolderLMDB.getitemBody, hk]
  · rcases hf : a.fetch key with _ | r
    · simp [ImageFolderLMDB.getitemBody, hk, hf]
    · rcases hb : pyIndex r.imgbuf 0 with _ | ib
      · simp [ImageFolderLMDB.getitemBody, hk, hf, hb]
      · simp [ImageFolderLMDB.getitemBody, hk, hf, hb]

/-- With no transform configured, `getitemBody` leaves the RNG state alone. -/
theorem getitemBody_rng_of_none {Img : Type} (d : Bytes → Img) (a : Archive)
    (s : LMDBState Img) (i : Int) (rng : Nat) (ht : s.transform = none) :
    (ImageFolderLMDB.getitemBody d a s i rng).2.2 = rng := by
  rcases hk : pyIndex s.keys i with _ | key
  · simp [ImageFolderLMDB.getitemBody, hk]
  · rcases hf : a.fetch key with _ | r
    · simp [ImageFolderLMDB.getitemBody, hk, hf]
    · rcases hb : pyIndex r.imgbuf 0 with _ | ib
      · simp [ImageFolderLMDB.getitemBody, hk, hf, hb]
      · simp [ImageFolderLMDB.getitemBody, hk, hf, hb, ht]

/-- `getitemBody` depends on the index only through `pyIndex` on the stored
key sequence. -/
theorem getitemBody_congr_index {Img : Type} (d : Bytes → Img) (a : Archive)
    (s : LMDBState Img) (i j : Int) (rng : Nat)
    (h : pyIndex s.keys i = pyIndex s.keys j) :
    ImageFolderLMDB.getitemBody d a s i rng
      = ImageFolderLMDB.getitemBody d a s j rng := by
  unfold ImageFolderLMDB.getitemBody
  rw [h]

/-- `getitemBody` can fail only with `IndexOutOfRange` or `DecodeError`. -/
theorem getitemBody_ne_storage {Img : Type} (d : Bytes → Img) (a : Archive)
    (s : LMDBState Img) (i : Int) (rng : Nat) :
    (ImageFolderLMDB.getitemBody d a s i rng).1 ≠ .error .StorageUnavailable := by
  rcases hk : pyIndex s.keys i with _ | key
  · simp [ImageFolderLMDB.getitemBody, hk]
  · rcases hf : a.fetch key with _ | r
    · simp [ImageFolderLMDB.getitemBody, hk, hf]
    · rcases hb : pyIndex r.imgbuf 0 with _ | ib
      · simp [ImageFolderLMDB.getitemBody, hk, hf, hb]
      · simp [ImageFolderLMDB.getitemBody, hk, hf, hb]

theorem chunkList_cons_eq {α : Type} (B : Nat) (x : α) (rest : List α) :
    chunkList (B + 1) (x :: rest)
      = (x :: rest).take (B + 1) :: chunkList (B + 1) ((x :: rest).drop (B + 1)) := by
  simp only [chunkList]

theorem chunkList_flatten {α : Type} (B : Nat) (hB : 0 < B) :
    ∀ (n : Nat) (xs : List α), xs.length ≤ n → (chunkList B xs).flatten = xs := by
  intro n
  induction n with
  | zero =>
    intro xs h
    have hx : xs = [] := List.length_eq_zero.mp (Nat.le_zero.mp h)
    subst hx
    simp [chunkList]
  | succ n ih =>
    intro xs h
    cases xs with
    | nil => simp [chunkList]
    | cons x rest =>
      cases B with
      | zero => omega
      | succ B =>
        have h2 : ((x :: rest).drop (B + 1)).length ≤ n := by
          simp only [List.length_drop, List.length_cons] at h ⊢
          omega
        rw [chunkList_cons_eq]
        simp only [List.flatten_cons]
        rw [ih _ h2]
        exact List.take_append_drop _ _

theorem chunkList_length {α : Type} (B : Nat) (hB : 0 < B) :
    ∀ (n : Nat) (xs : List α), xs.length ≤ n →
      (chunkList B xs).length = (xs.length + B - 1) / B := by
  intro n
  induction n with
  | zero =>
    intro xs h
    have hx : xs = [] := List.length_eq_zero.mp (Nat.le_zero.mp h)
    subst hx
    simp only [chunkList, List.length_nil, Nat.zero_add]
    exact (Nat.div_eq_of_lt (by omega)).symm
  | succ n ih =>
    intro xs h
    cases xs with
    | nil =>
      simp only [chunkList, List.length_nil, Nat.zero_add]
      exact (Nat.div_eq_of_lt (by omega)).symm
    | cons x rest =>
      cases B with
      | zero => omega
      | succ B =>
        have h2 : ((x :: rest).drop (B + 1)).length ≤ n := by
          simp only [List.length_drop, List.length_cons] at h ⊢
          omega
        rw [chunkList_cons_eq]
        simp only [List.length_cons]
        rw [ih _ h2]
        simp only [List.length_drop, List.length_cons]
        rcases Nat.lt_or_ge (rest.length + 1) (B + 1) with hlt | hge
        · have e1 : rest.length + 1 - (B + 1) = 0 := by omega
          rw [e1]
          have e2 : (0 + (B + 1) - 1) / (B + 1) = 0 :=
            Nat.div_eq_of_lt (by omega)
          have e3 : (rest.length + 1 + (B + 1) - 1) / (B + 1) = 1 := by
            apply Nat.div_eq_of_lt_le <;> omega
          omega
        · have e1 : rest.length + 1 + (B + 1) - 1
              = (rest.length + 1 - (B + 1) + (B + 1) - 1) + (B + 1) := by omega
          rw [e1, Nat.add_div_right _ (by omega : 0 < B + 1)]

theorem chunkList_mem_sizes {α : Type} (B : Nat) (hB : 0 < B) :
    ∀ (n : Nat) (xs : List α), xs.length ≤ n →
      ∀ c ∈ chunkList B xs, c.length ≤ B ∧ c ≠ [] := by
  intro n
  induction n with
  | zero =>
    intro xs h
    have hx : xs = [] := List.length_eq_zero.mp (Nat.le_zero.mp h)
    subst hx
    simp [chunkList]
  | succ n ih =>
    intro xs h
    cases xs with
    | nil => simp [chunkList]
    | cons x rest =>
      cases B with
      | zero => omega
      | succ B =>
        have h2 : ((x :: rest).drop (B + 1)).length ≤ n := by
          simp only [List.length_drop, List.length_cons] at h ⊢
          omega
        rw [chunkList_cons_eq]
        intro c hc
        rcases List.mem_cons.mp hc with hc1 | hc2
        · subst hc1
          constructor
          · simp only [List.length_take, List.length_cons]
            omega
          · intro hnil
            rcases List.take_eq_nil_iff.mp hnil with h0 | h0
            · omega
            · exact List.cons_ne_nil _ _ h0
        · exact ih _ h2 c hc2

theorem chunkList_ne_nil {α : Type} (B : Nat) (x : α) (rest : List α) (hB : 0 < B) :
    chunkList B (x :: rest) ≠ [] := by
  cases B with
  | zero => omega
  | succ B =>
    rw [chunkList_cons_eq]
    simp

theorem chunkList_dropLast_sizes {α : Type} (B : Nat) (hB : 0 < B) :
    ∀ (n : Nat) (xs : List α), xs.length ≤ n →
      ∀ c ∈ (chunkList B xs).dropLast, c.length = B := by
  intro n
  induction n with
  | zero =>
    intro xs h
    have hx : xs = [] := List.length_eq_zero.mp (Nat.le_zero.mp h)
    subst hx
    simp [chunkList]
  | succ n ih =>
    intro xs h
    cases xs with
    | nil => simp [chunkList]
    | cons x rest =>
      cases B with
      | zero => omega
      | succ B =>
        have h2 : ((x :: rest).drop (B + 1)).length ≤ n := by
          simp only [List.length_drop, List.length_cons] at h ⊢
          omega
        rw [chunkList_cons_eq]
        rcases hd : (x :: rest).drop (B + 1) with _ | ⟨y, ys⟩
        · simp [chunkList]
        · have hne : chunkList (B + 1) (y :: ys) ≠ [] :=
            chunkList_ne_nil _ _ _ (Nat.succ_pos B)
          rw [List.dropLast_cons_of_ne_nil hne]
          intro c hc
          rcases List.mem_cons.mp hc with hc1 | hc2
          · subst hc1
            have h3 := congrArg List.length hd
            simp only [List.length_drop, List.length_cons] at h3
            simp only [List.length_take, List.length_cons]
            omega
          · have h2y : (y :: ys).length ≤ n := by
              rw [← hd]
              exact h2
            exact ih _ h2y c hc2

theorem updates_append (m : AverageMeter) (us : List (ℚ × ℕ)) (u : ℚ × ℕ) :
    m.updates (us ++ [u]) = (m.updates us).update u.1 u.2 := by
  simp [AverageMeter.updates, List.foldl_append]

theorem updates_invariant (us : List (ℚ × ℕ)) :
    (AverageMeter.reset.updates us).sum = (us.map (fun u => u.1 * (u.2 : ℚ))).sum ∧
    (AverageMeter.reset.updates us).count = (us.map (fun u => u.2)).sum ∧
    (AverageMeter.reset.updates us).avg_values
      = (List.range us.length).map (runningAvg us) := by
  induction us using List.reverseRecOn with
  | nil => simp [AverageMeter.updates, AverageMeter.reset]
  | append_singleton us u ih =>
    obtain ⟨ihs, ihc, ihv⟩ := ih
    rw [updates_append]
    refine ⟨?_, ?_, ?_⟩
    · simp [AverageMeter.update, ihs]
    · simp [AverageMeter.update, ihc]
    · simp only [AverageMeter.update, ihv, ihs, ihc]
      rw [List.length_append, List.length_singleton, List.range_succ, List.map_append]
      congr 1
      · apply List.map_congr_left
        intro i hi
        have hi2 : i + 1 ≤ us.length := by
          have := List.mem_range.mp hi
          omega
        unfold runningAvg
        rw [List.take_append_of_le_length hi2]
      · simp only [List.map_cons, List.map_nil]
        unfold runningAvg
        have hfull : (us ++ [u]).take (us.length + 1) = us ++ [u] := by
          apply List.take_of_length_le
          simp
        rw [hfull]
        simp

theorem updates_val_last (us : List (ℚ × ℕ)) (u : ℚ × ℕ)
    (h : us.getLast? = some u) :
    (AverageMeter.reset.updates us).val = u.1 := by
  induction us using List.reverseRecOn with
  | nil => simp at h
  | append_singleton us v _ih =>
    rw [List.getLast?_concat] at h
    obtain rfl : v = u := by injection h
    rw [updates_append]
    rfl

theorem updates_avg_eq (us : List (ℚ × ℕ)) (u : ℚ × ℕ)
    (h : us.getLast? = some u) :
    (AverageMeter.reset.updates us).avg
      = (AverageMeter.reset.updates us).sum
          / (((AverageMeter.reset.updates us).count : ℕ) : ℚ) := by
  induction us using List.reverseRecOn with
  | nil => simp at h
  | append_singleton us v _ih =>
    rw [updates_append]
    rfl

/-! ### Claims -/

/-- C8: `reset()` puts an `AverageMeter` in the zero state, and after any
nonempty sequence of `update(v_i, n_i)` calls with every `n_i ≥ 1` from the zero
state, `val` is the last value, `sum = Σ v_i * n_i`, `count = Σ n_i`,
`avg = sum / count` with exact rational equality, and the history has length `k`
with the running average appended after each update. -/
theorem C8_average_meter (us : List (ℚ × ℕ)) (u : ℚ × ℕ)
    (_h1 : ∀ w ∈ us, 1 ≤ w.2) (h2 : us.getLast? = some u) :
    AverageMeter.reset
      = { val := 0, avg := 0, sum := 0, count := 0, avg_values := [] } ∧
    (AverageMeter.reset.updates us).val = u.1 ∧
    (AverageMeter.reset.updates us).sum = (us.map (fun w => w.1 * (w.2 : ℚ))).sum ∧
    (AverageMeter.reset.updates us).count = (us.map (fun w => w.2)).sum ∧
    (AverageMeter.reset.updates us).avg
      = (AverageMeter.reset.updates us).sum
          / (((AverageMeter.reset.updates us).count : ℕ) : ℚ) ∧
    (AverageMeter.reset.updates us).avg_values.length = us.length ∧
    (AverageMeter.reset.updates us).avg_values
      = (List.range us.length).map (runningAvg us) := by
  obtain ⟨hs, hc, hv⟩ := updates_invariant us
  refine ⟨rfl, updates_val_last us u h2, hs, hc, updates_avg_eq us u h2, ?_, hv⟩
  rw [hv]
  simp

/-- C8 witness: two concrete updates. -/
theorem C8_average_meter_witness :
    AverageMeter.reset
      = { val := 0, avg := 0, sum := 0, count := 0, avg_values := [] } ∧
    (AverageMeter.reset.updates [((3 : ℚ), 2), ((1 : ℚ), 1)]).val = 1 ∧
    (AverageMeter.reset.updates [((3 : ℚ), 2), ((1 : ℚ), 1)]).sum
      = ([((3 : ℚ), 2), ((1 : ℚ), 1)].map (fun w => w.1 * (w.2 : ℚ))).sum ∧
    (AverageMeter.reset.updates [((3 : ℚ), 2), ((1 : ℚ), 1)]).count
      = ([((3 : ℚ), 2), ((1 : ℚ), 1)].map (fun w => w.2)).sum ∧
    (AverageMeter.reset.updates [((3 : ℚ), 2), ((1 : ℚ), 1)]).avg
      = (AverageMeter.reset.updates [((3 : ℚ), 2), ((1 : ℚ), 1)]).sum
          / (((AverageMeter.reset.updates [((3 : ℚ), 2), ((1 : ℚ), 1)]).count : ℕ) : ℚ) ∧
    (AverageMeter.reset.updates [((3 : ℚ), 2), ((1 : ℚ), 1)]).avg_values.length
      = [((3 : ℚ), 2), ((1 : ℚ), 1)].length ∧
    (AverageMeter.reset.updates [((3 : ℚ), 2), ((1 : ℚ), 1)]).avg_values
      = List.map (runningAvg [((3 : ℚ), 2), ((1 : ℚ), 1)])
          (List.range [((3 : ℚ), 2), ((1 : ℚ), 1)].length) :=
  C8_average_meter [((3 : ℚ), 2), ((1 : ℚ), 1)] ((1 : ℚ), 1) (by decide) (by decide)

/-- C4: for a dataset of length `L` and positive batch size `B`, one pass of
the batching pipeline yields exactly `ceil(L/B) = (L + B - 1) / B` batches,
every batch but possibly the last has size `B`, the last is nonempty and no
larger, and the indices across the pass are exactly `{0, ..., L-1}` as a
multiset. -/
theorem C4_batching (L B : Nat) (perm : List Nat) (hB : 0 < B)
    (hperm : perm.Perm (List.range L)) :
    (onePass B perm).length = (L + B - 1) / B ∧
    (∀ c ∈ (onePass B perm).dropLast, c.length = B) ∧
    (∀ c ∈ onePass B perm, c.length ≤ B ∧ c ≠ []) ∧
    (onePass B perm).flatten.Perm (List.range L) := by
  have hlen : perm.length = L := by simpa using hperm.length_eq
  refine ⟨?_, ?_, ?_, ?_⟩
  · rw [onePass, chunkList_length B hB perm.length perm le_rfl, hlen]
  · exact chunkList_dropLast_sizes B hB perm.length perm le_rfl
  · exact chunkList_mem_sizes B hB perm.length perm le_rfl
  · rw [onePass, chunkList_flatten B hB perm.length perm le_rfl]
    exact hperm

/-- C4 witness: the spec's end-to-end scenario, `L = 5`, `B = 2`, one shuffled
pass. -/
theorem C4_batching_witness :
    (onePass 2 [3, 0, 4, 1, 2]).length = (5 + 2 - 1) / 2 ∧
    (∀ c ∈ (onePass 2 [3, 0, 4, 1, 2]).dropLast, c.length = 2) ∧
    (∀ c ∈ onePass 2 [3, 0, 4, 1, 2], c.length ≤ 2 ∧ c ≠ []) ∧
    (onePass 2 [3, 0, 4, 1, 2]).flatten.Perm (List.range 5) :=
  C4_batching 5 2 [3, 0, 4, 1, 2] (by decide) (by decide)

/-- C7: for every backend the driver runs exactly 10 timed passes, and the
summary reports the arithmetic mean of the 10 per-pass averages and, as grand
totals, the sum of the 10 per-pass raw sums, for both data-wait and batch
time. -/
theorem C7_pass_summary (train : Nat → AverageMeter × AverageMeter) :
    ((List.range 10).map train).length = 10 ∧
    measureBackend train
      = { avgData := ((List.range 10).map (fun i => (train i).2.avg)).sum / 10
          avgBatch := ((List.range 10).map (fun i => (train i).1.avg)).sum / 10
          totalData := ((List.range 10).map (fun i => (train i).2.sum)).sum
          totalBatch := ((List.range 10).map (fun i => (train i).1.sum)).sum } := by
  constructor
  · simp
  · unfold measureBackend npMean
    simp only [List.map_map, List.length_map, List.length_range, Nat.cast_ofNat]
    rfl

/-- C6 counterexample: with the LMDB archive unavailable and the imagefolder
backend perfectly constructible, the driver's loop terminates with the escaped
`StorageUnavailable` and an empty list of emitted summaries — the remaining
configured backend (imagefolder) is neither run nor summarized, because the
`for dataset_type in DBS:` loop of `main` has no exception handler. -/
theorem C6_counterexample :
    constructMissingLmdb .imagefolder = .ok () ∧
    mainRun constructMissingLmdb trainZero = ([], some .StorageUnavailable) :=
  ⟨rfl, rfl⟩

/-- C6 amended: if the first configured backend's dataset fails to open, the
exception propagates out of the driver loop: the whole driver aborts with that
error and no backend — neither the failing one nor any remaining one — is
summarized. -/
theorem C6_driver_aborts (construct : Backend → Except PyErr Unit)
    (train : Backend → Nat → AverageMeter × AverageMeter) (e : PyErr)
    (h : construct .lmdb = .error e) :
    mainRun construct train = ([], some e) := by
  simp [mainRun, DBS, runBackends, h]

/-- C6 witness. -/
theorem C6_driver_aborts_witness :
    mainRun constructMissingLmdb trainZero = ([], some .StorageUnavailable) :=
  C6_driver_aborts constructMissingLmdb trainZero .StorageUnavailable rfl

/-- C5 counterexample: two archives that differ only in the reserved count
entry yield constructed handles with different `length` fields, so
`ImageFolderLMDB.__init__` does read the count (and likewise the key sequence)
at open time, contrary to the claim that open only validates accessibility. -/
theorem C5_counterexample :
    arch2.store = arch2'.store ∧ arch2.keysEntry = arch2'.keysEntry ∧
    arch2.lenEntry ≠ arch2'.lenEntry ∧
    (@ImageFolderLMDB.init Bytes [0] none none (some arch2)).toOption.map
        (fun s => s.length) = some 2 ∧
    (@ImageFolderLMDB.init Bytes [0] none none (some arch2')).toOption.map
        (fun s => s.length) = some 99 :=
  ⟨rfl, rfl, by decide, rfl, rfl⟩

/-- C5 amended: constructing the handle validates that the archive opens
(failing with `StorageUnavailable` otherwise) and *also* loads the index right
then: the reserved count and ordered key sequence are read and stored at open
time (they are re-read later by the lazy per-worker open). -/
theorem C5_open_loads_index (Img : Type) (path : Bytes)
    (t : Option (Img → Nat → Img × Nat)) (tt : Option (Int → Int)) (a : Archive) :
    ImageFolderLMDB.init path t tt (some a)
      = .ok { db_path := path, transform := t, target_transform := tt,
              length := a.lenEntry, keys := a.keysEntry, env := none, txn := none } ∧
    @ImageFolderLMDB.init Img path t tt none = .error .StorageUnavailable :=
  ⟨rfl, rfl⟩

/-- C2: the worker-local connection is established exactly once: a `get` on a
handle with no connection opens it (setting `txn` and loading the stored count
and ordered key sequence), and every later `get` on a handle whose connection
exists leaves the whole handle state — in particular the connection — exactly
as it was, whatever now lives at the path. -/
theorem C2_lazy_open_once {Img : Type} (d : Bytes → Img) (s : LMDBState Img)
    (a : Archive) (index : Int) (rng : Nat) :
    ((ImageFolderLMDB.open_lmdb s a).txn = some a ∧
     (ImageFolderLMDB.open_lmdb s a).keys = a.keysEntry ∧
     (ImageFolderLMDB.open_lmdb s a).length = a.lenEntry) ∧
    (s.txn = none →
      (ImageFolderLMDB.getitem d s (some a) index rng).2.1
        = ImageFolderLMDB.open_lmdb s a) ∧
    (∀ (a0 : Archive) (storage : Option Archive), s.txn = some a0 →
      (ImageFolderLMDB.getitem d s storage index rng).2.1 = s) := by
  refine ⟨⟨rfl, rfl, rfl⟩, ?_, ?_⟩
  · intro h
    simp only [ImageFolderLMDB.getitem, h]
    exact getitemBody_state d a _ index rng
  · intro a0 storage h
    simp only [ImageFolderLMDB.getitem, h]
    exact getitemBody_state d a0 s index rng

/-- C2 witness: a first `get` on the fresh `state2` opens the connection; a
second `get` on the opened handle changes nothing, even with a different
archive now at the path. -/
theorem C2_lazy_open_once_witness :
    (ImageFolderLMDB.getitem (fun b => b) state2 (some arch2) 0 0).2.1
      = ImageFolderLMDB.open_lmdb state2 arch2 ∧
    (ImageFolderLMDB.getitem (fun b => b) (ImageFolderLMDB.open_lmdb state2 arch2)
        (some arch2') 1 0).2.1
      = ImageFolderLMDB.open_lmdb state2 arch2 :=
  ⟨(C2_lazy_open_once (fun b => b) state2 arch2 0 0).2.1 rfl,
   (C2_lazy_open_once (fun b => b) (ImageFolderLMDB.open_lmdb state2 arch2)
      arch2 1 0).2.2 arch2 (some arch2') rfl⟩

/-- C9: a `get` that fails with an out-of-range index on a not-yet-opened
handle still opens and retains the worker-local connection: the lazy open
happens before the index is used, so the handle ends in the opened state even
though the call returned `IndexOutOfRange`. -/
theorem C9_failed_get_opens {Img : Type} (d : Bytes → Img) (s : LMDBState Img)
    (a : Archive) (index : Int) (rng : Nat)
    (h1 : s.txn = none)
    (h2 : (a.keysEntry.length : Int) ≤ index ∨ index < -(a.keysEntry.length : Int)) :
    (ImageFolderLMDB.getitem d s (some a) index rng).1 = .error .IndexOutOfRange ∧
    (ImageFolderLMDB.getitem d s (some a) index rng).2.1
      = ImageFolderLMDB.open_lmdb s a ∧
    (ImageFolderLMDB.open_lmdb s a).txn = some a := by
  have hk : pyIndex (ImageFolderLMDB.open_lmdb s a).keys index = none := by
    rw [pyIndex_eq_none_iff]
    exact h2
  refine ⟨?_, ?_, rfl⟩
  · simp [ImageFolderLMDB.getitem, h1, ImageFolderLMDB.getitemBody, hk]
  · simp only [ImageFolderLMDB.getitem, h1]
    exact getitemBody_state d a _ index rng

/-- C9 witness: `get(5)` on a fresh handle over the 2-sample `arch2`. -/
theorem C9_failed_get_opens_witness :
    (ImageFolderLMDB.getitem (fun b => b) state2 (some arch2) 5 0).1
      = .error .IndexOutOfRange ∧
    (ImageFolderLMDB.getitem (fun b => b) state2 (some arch2) 5 0).2.1
      = ImageFolderLMDB.open_lmdb state2 arch2 ∧
    (ImageFolderLMDB.open_lmdb state2 arch2).txn = some arch2 :=
  C9_failed_get_opens (fun b => b) state2 arch2 5 0 rfl (by decide)

/-- C10: the connection opened by `__init__` is discarded (no `env`/`txn`
attribute is set) after reading the count and key sequence; the first `get`
opens a fresh connection against whatever archive now lives at the path and
re-reads both reserved entries, overwriting the constructor's values, with no
consistency check — the call does not fail even when the two archives
disagree arbitrarily. -/
theorem C10_reread_overwrites {Img : Type} (d : Bytes → Img) (path : Bytes)
    (t : Option (Img → Nat → Img × Nat)) (tt : Option (Int → Int))
    (a1 a2 : Archive) (s0 : LMDBState Img) (index : Int) (rng : Nat)
    (h0 : ImageFolderLMDB.init path t tt (some a1) = .ok s0) :
    s0.txn = none ∧ s0.env = none ∧
    s0.length = a1.lenEntry ∧ s0.keys = a1.keysEntry ∧
    (ImageFolderLMDB.getitem d s0 (some a2) index rng).2.1.txn = some a2 ∧
    (ImageFolderLMDB.getitem d s0 (some a2) index rng).2.1.length = a2.lenEntry ∧
    (ImageFolderLMDB.getitem d s0 (some a2) index rng).2.1.keys = a2.keysEntry ∧
    (ImageFolderLMDB.getitem d s0 (some a2) index rng).1
      ≠ .error .StorageUnavailable := by
  simp only [ImageFolderLMDB.init, Except.ok.injEq] at h0
  subst h0
  have hst : (ImageFolderLMDB.getitem d
      { db_path := path, transform := t, target_transform := tt,
        length := a1.lenEntry, keys := a1.keysEntry, env := none, txn := none }
      (some a2) index rng).2.1
      = ImageFolderLMDB.open_lmdb
          { db_path := path, transform := t, target_transform := tt,
            length := a1.lenEntry, keys := a1.keysEntry, env := none, txn := none } a2 := by
    simp only [ImageFolderLMDB.getitem]
    exact getitemBody_state d a2 _ index rng
  refine ⟨rfl, rfl, rfl, rfl, ?_, ?_, ?_, ?_⟩
  · rw [hst]; rfl
  · rw [hst]; rfl
  · rw [hst]; rfl
  · simp only [ImageFolderLMDB.getitem]
    exact getitemBody_ne_storage d a2 _ index rng

/-- C10 witness: construct on `arch2`, first `get` against `arch2'` whose
stored count (99) disagrees with the construction-time count (2). -/
theorem C10_reread_overwrites_witness :
    state2.txn = none ∧ state2.env = none ∧
    state2.length = arch2.lenEntry ∧ state2.keys = arch2.keysEntry ∧
    (ImageFolderLMDB.getitem (fun b => b) state2 (some arch2') 0 0).2.1.txn
      = some arch2' ∧
    (ImageFolderLMDB.getitem (fun b => b) state2 (some arch2') 0 0).2.1.length
      = arch2'.lenEntry ∧
    (ImageFolderLMDB.getitem (fun b => b) state2 (some arch2') 0 0).2.1.keys
      = arch2'.keysEntry ∧
    (ImageFolderLMDB.getitem (fun b => b) state2 (some arch2') 0 0).1
      ≠ .error .StorageUnavailable :=
  C10_reread_overwrites (fun b => b) [0] none none arch2 arch2' state2 0 0 rfl

/-- C1 counterexample: on the 2-sample `arch2` (valid indices 0..1), the call
`get(-1)` does not fail with `IndexOutOfRange`: Python's negative list indexing
makes `self.keys[-1]` alias the last key, so the call succeeds and returns the
sample at index 1. -/
theorem C1_counterexample :
    ((-1 : Int) < 0) ∧
    (ImageFolderLMDB.getitem (fun b => b) state2 (some arch2) (-1) 0).1
      = .ok ([20, 21], 1) :=
  ⟨by decide, rfl⟩

/-- C1 amended: for a well-formed archive and a freshly constructed handle,
`get(index)` succeeds for `0 ≤ index < length()`; it fails with
`IndexOutOfRange` exactly when `index ≥ length()` or `index < -length()`; and
for `-length() ≤ index < 0` it succeeds, returning the same result as
`get(index + length())` (Python negative-index aliasing), rather than
failing. -/
theorem C1_index_semantics {Img : Type} (d : Bytes → Img) (path : Bytes)
    (a : Archive) (s0 : LMDBState Img) (index : Int) (rng : Nat)
    (hwf : a.WellFormed)
    (h0 : ImageFolderLMDB.init path none none (some a) = .ok s0) :
    (0 ≤ index ∧ index < (ImageFolderLMDB.len s0 : Int) →
      ∃ v, (ImageFolderLMDB.getitem d s0 (some a) index rng).1 = .ok v) ∧
    ((ImageFolderLMDB.len s0 : Int) ≤ index ∨ index < -(ImageFolderLMDB.len s0 : Int) →
      (ImageFolderLMDB.getitem d s0 (some a) index rng).1
        = .error .IndexOutOfRange) ∧
    (-(ImageFolderLMDB.len s0 : Int) ≤ index ∧ index < 0 →
      (ImageFolderLMDB.getitem d s0 (some a) index rng).1
        = (ImageFolderLMDB.getitem d s0 (some a)
            (index + ImageFolderLMDB.len s0) rng).1) := by
  obtain ⟨hwf1, hwf2⟩ := hwf
  simp only [ImageFolderLMDB.init, Except.ok.injEq] at h0
  subst h0
  have hred : ∀ (i : Int),
      ImageFolderLMDB.getitem d
        { db_path := path, transform := none, target_transform := none,
          length := a.lenEntry, keys := a.keysEntry, env := none, txn := none }
        (some a) i rng
      = ImageFolderLMDB.getitemBody d a
          { db_path := path, transform := none, target_transform := none,
            length := a.lenEntry, keys := a.keysEntry, env := some a, txn := some a }
          i rng := fun _ => rfl
  simp only [ImageFolderLMDB.len, hred]
  refine ⟨?_, ?_, ?_⟩
  · intro h
    obtain ⟨key, hkey⟩ : ∃ k, pyIndex a.keysEntry index = some k := by
      rcases hk : pyIndex a.keysEntry index with _ | k
      · rw [pyIndex_eq_none_iff] at hk
        omega
      · exact ⟨k, rfl⟩
    have hmem := pyIndex_mem a.keysEntry index key hkey
    have hok := List.all_eq_true.mp hwf2 _ hmem
    rcases hf : a.fetch key with _ | r
    · simp [Archive.keyOkB, hf] at hok
    · rcases hb : r.imgbuf with _ | ⟨b, bs⟩
      · simp [Archive.keyOkB, hf, hb] at hok
      · exact ⟨(d b, r.label),
          by simp [ImageFolderLMDB.getitemBody, hkey, hf, hb, pyIndex_zero]⟩
  · intro h
    have hk : pyIndex a.keysEntry index = none := by
      rw [pyIndex_eq_none_iff]
      omega
    simp [ImageFolderLMDB.getitemBody, hk]
  · intro h
    have halias : pyIndex a.keysEntry index
        = pyIndex a.keysEntry (index + (a.lenEntry : Int)) := by
      have h2 := pyIndex_neg_alias a.keysEntry index (by omega) h.2
      rw [h2]
      congr 1
      omega
    rw [getitemBody_congr_index d a _ index (index + (a.lenEntry : Int)) rng halias]

/-- C1 witness: on `arch2`, `get(1)` succeeds, `get(5)` fails with
`IndexOutOfRange`, and `get(-1)` returns the same result as `get(1)`. -/
theorem C1_index_semantics_witness :
    ((0 : Int) ≤ 1 ∧ (1 : Int) < (ImageFolderLMDB.len state2 : Int) ∧
      ∃ v, (ImageFolderLMDB.getitem (fun b => b) state2 (some arch2) 1 0).1 = .ok v) ∧
    ((ImageFolderLMDB.len state2 : Int) ≤ 5 ∧
      (ImageFolderLMDB.getitem (fun b => b) state2 (some arch2) 5 0).1
        = .error .IndexOutOfRange) ∧
    (-(ImageFolderLMDB.len state2 : Int) ≤ -1 ∧
      (ImageFolderLMDB.getitem (fun b => b) state2 (some arch2) (-1) 0).1
        = (ImageFolderLMDB.getitem (fun b => b) state2 (some arch2)
            (-1 + ImageFolderLMDB.len state2) 0).1) :=
  ⟨⟨by decide, by decide,
    (C1_index_semantics (fun b => b) [0] arch2 state2 1 0 (by decide) rfl).1
      (by constructor <;> decide)⟩,
   ⟨by decide,
    (C1_index_semantics (fun b => b) [0] arch2 state2 5 0 (by decide) rfl).2.1
      (by left; decide)⟩,
   ⟨by decide,
    (C1_index_semantics (fun b => b) [0] arch2 state2 (-1) 0 (by decide) rfl).2.2
      (by constructor <;> decide)⟩⟩

/-- C3 counterexample: with the randomized transform `main` configures, two
back-to-back calls to `get(0)` on the same unchanged archive return different
Samples — the second call sees the advanced RNG state and flips the image. -/
theorem C3_counterexample :
    (ImageFolderLMDB.getitem (fun b => b) state2rand (some arch2) 0 0).1
      = .ok ([10, 11], 7) ∧
    (ImageFolderLMDB.getitem (fun b => b)
        (ImageFolderLMDB.getitem (fun b => b) state2rand (some arch2) 0 0).2.1
        (some arch2) 0
        (ImageFolderLMDB.getitem (fun b => b) state2rand (some arch2) 0 0).2.2).1
      = .ok ([11, 10], 7) ∧
    ([10, 11] : Bytes) ≠ [11, 10] :=
  ⟨rfl, rfl, by decide⟩

/-- C3 amended: `get` is a deterministic function of the archive snapshot, the
index, and the transform's RNG state.  With no transform configured (the raw
decode path), a successful `get(index)` followed by a second `get(index)` on
the resulting handle returns the bit-identical Sample; with the randomized
transform configured in `main`, the two calls may differ because the RNG state
advances. -/
theorem C3_deterministic {Img : Type} (d : Bytes → Img) (s : LMDBState Img)
    (storage : Option Archive) (index : Int) (rng rng2 : Nat)
    (v : Img × Int) (s2 : LMDBState Img)
    (ht : s.transform = none)
    (h1 : ImageFolderLMDB.getitem d s storage index rng = (.ok v, s2, rng2)) :
    ImageFolderLMDB.getitem d s2 storage index rng2 = (.ok v, s2, rng2) := by
  cases htxn : s.txn with
  | some a =>
    have hb : ImageFolderLMDB.getitem d s storage index rng
        = ImageFolderLMDB.getitemBody d a s index rng := by
      simp only [ImageFolderLMDB.getitem, htxn]
    rw [hb] at h1
    have hs : s2 = s := by
      have h3 := getitemBody_state d a s index rng
      rw [h1] at h3
      simpa using h3
    have hr : rng2 = rng := by
      have h4 := getitemBody_rng_of_none d a s index rng ht
      rw [h1] at h4
      simpa using h4
    rw [hs, hr] at h1 ⊢
    rw [hb]
    exact h1
  | none =>
    cases storage with
    | none =>
      simp only [ImageFolderLMDB.getitem, htxn] at h1
      simp at h1
    | some a =>
      have hb : ImageFolderLMDB.getitem d s (some a) index rng
          = ImageFolderLMDB.getitemBody d a (ImageFolderLMDB.open_lmdb s a) index rng := by
        simp only [ImageFolderLMDB.getitem, htxn]
      rw [hb] at h1
      have hs : s2 = ImageFolderLMDB.open_lmdb s a := by
        have h3 := getitemBody_state d a (ImageFolderLMDB.open_lmdb s a) index rng
        rw [h1] at h3
        simpa using h3
      have hto : (ImageFolderLMDB.open_lmdb s a).transform = none := ht
      have hr : rng2 = rng := by
        have h4 := getitemBody_rng_of_none d a (ImageFolderLMDB.open_lmdb s a)
          index rng hto
        rw [h1] at h4
        simpa using h4
      rw [hs, hr] at h1 ⊢
      have hb2 : ImageFolderLMDB.getitem d (ImageFolderLMDB.open_lmdb s a)
          (some a) index rng
          = ImageFolderLMDB.getitemBody d a (ImageFolderLMDB.open_lmdb s a) index rng := by
        simp only [ImageFolderLMDB.getitem, ImageFolderLMDB.open_lmdb]
      rw [hb2]
      exact h1

/-- C3 witness: on `arch2` with no transform, a successful `get(0)` repeated on
the resulting handle is bit-identical. -/
theorem C3_deterministic_witness :
    ImageFolderLMDB.getitem (fun b => b)
        (ImageFolderLMDB.open_lmdb state2 arch2) (some arch2) 0 0
      = (.ok ([10, 11], 7), ImageFolderLMDB.open_lmdb state2 arch2, 0) :=
  C3_deterministic (fun b => b) state2 (some arch2) 0 0 0 ([10, 11], 7)
    (ImageFolderLMDB.open_lmdb state2 arch2) rfl rfl

end PytorchLmdb
